import Mathlib

/-!
Shallow embedding of `src/custom_tool.py` from the aviation-RAG repository.

The file has two pieces of local logic:

* `split_pdf(input_path, max_pages=10)` — splits a PDF into contiguous page
  windows of at most `max_pages` pages, writing each window to
  `split_{i}.pdf` where `i` is the window's starting page index, and
  returning the ordered list of written paths.

* `DocumentSearchTool` — on construction creates a remote bucket named
  `"agentic_rag"`, splits the input file when its byte size exceeds
  10485760 bytes, uploads each part, and records one process id per part.
  On `_run(query)` it iterates the recorded process ids: for each it fetches
  the processing status, returns a sentinel string if the status is not
  `"complete"`, otherwise immediately issues a search request
  (`n=10, verbosity=2`) against the bucket and collects the returned text
  fragments; at the end the fragments are joined with `"\n____\n"`, or a
  fixed no-results sentinel is returned when none were collected.

External collaborators (the filesystem, the PDF library, and the GroundX
remote service) are modelled by a deterministic oracle `Env`, and the calls
made to the outside world are recorded in an explicit event trace so that
ordering properties of the remote interaction can be stated.
-/

namespace AviationRAG

/-- Python `range(start, stop, step)` over naturals for `step ≥ 1`: the
elements `start + k * step` for `k < ⌈(stop - start) / step⌉`. -/
def pyRange (start stop step : Nat) : List Nat :=
  (List.range ((stop - start + step - 1) / step)).map (fun k => start + k * step)

/-- Ceiling division `⌈P / W⌉ = (P + W - 1) / W` on naturals (for `W ≥ 1`). -/
def ceilDivN (P W : Nat) : Nat := (P + W - 1) / W

/-- One output part of `split_pdf`: the file path it is saved to and the
zero-based page indices of the source document it contains. -/
structure PdfPart where
  path : String
  pages : List Nat
deriving Repr, DecidableEq

/-- Embeds `split_pdf(input_path, max_pages)` (src/custom_tool.py:83-99).
The source document is abstracted by its page count `P = len(doc)`.
The python loop `for i in range(0, len(doc), max_pages)` creates, for each
window start `i`, a part saved to `f"split_{i}.pdf"` whose pages are
`range(i, min(i + max_pages, len(doc)))`, and returns the parts in loop
order. -/
def split_pdf (P : Nat) (max_pages : Nat) : List PdfPart :=
  (pyRange 0 P max_pages).map (fun i =>
    { path := "split_" ++ toString i ++ ".pdf"
      pages := pyRange i (min (i + max_pages) P) 1 })

theorem length_pyRange (start stop step : Nat) :
    (pyRange start stop step).length = (stop - start + step - 1) / step := by
  simp [pyRange]

theorem getElem?_pyRange (start stop step k : Nat) :
    (pyRange start stop step)[k]? =
      if k < (stop - start + step - 1) / step then some (start + k * step)
      else none := by
  unfold pyRange
  by_cases h : k < (stop - start + step - 1) / step
  · rw [List.getElem?_map, List.getElem?_range h]
    simp [h]
  · rw [List.getElem?_map, List.getElem?_eq_none (by simpa using Nat.le_of_not_lt h)]
    simp [h]

theorem length_pyRange_one (start stop : Nat) :
    (pyRange start stop 1).length = stop - start := by
  simp [pyRange]

theorem pyRange_one (start stop : Nat) :
    pyRange start stop 1 = (List.range (stop - start)).map (start + ·) := by
  simp [pyRange]

theorem length_split_pdf (P W : Nat) :
    (split_pdf P W).length = (P + W - 1) / W := by
  simp [split_pdf, length_pyRange]

theorem getElem?_split_pdf (P W k : Nat) :
    (split_pdf P W)[k]? =
      if k < (P + W - 1) / W then
        some { path := "split_" ++ toString (k * W) ++ ".pdf"
               pages := pyRange (k * W) (min (k * W + W) P) 1 }
      else none := by
  unfold split_pdf
  rw [List.getElem?_map, getElem?_pyRange]
  by_cases h : k < (P + W - 1) / W <;> simp [h]

theorem ceilDivN_eq (P W : Nat) (hP : 1 ≤ P) (hW : 1 ≤ W) :
    ceilDivN P W = (P - 1) / W + 1 := by
  have h : P + W - 1 = (P - 1) + W := by omega
  rw [ceilDivN, h, Nat.add_div_right _ hW]

theorem ceilDivN_pos (P W : Nat) (hP : 1 ≤ P) (hW : 1 ≤ W) :
    1 ≤ ceilDivN P W := by
  rw [ceilDivN_eq P W hP hW]
  exact Nat.succ_le_succ (Nat.zero_le _)

/-- The two defining inequalities of the ceiling: with `n = ⌈P/W⌉`,
`(n-1)·W < P ≤ n·W`. -/
theorem ceilDivN_bounds (P W : Nat) (hP : 1 ≤ P) (hW : 1 ≤ W) :
    (ceilDivN P W - 1) * W < P ∧ P ≤ ceilDivN P W * W := by
  rw [ceilDivN_eq P W hP hW]
  have hd := Nat.div_add_mod (P - 1) W
  have hm := Nat.mod_lt (P - 1) hW
  have h1 : ((P - 1) / W + 1 - 1) * W = W * ((P - 1) / W) := by
    rw [Nat.add_sub_cancel, Nat.mul_comm]
  have h2 : ((P - 1) / W + 1) * W = W * ((P - 1) / W) + W := by ring
  rw [h1, h2]
  omega

/-- With `n ≥ 1`, `(n - 1)·W + W = n·W`. -/
theorem pred_mul_add (n W : Nat) (hn : 1 ≤ n) :
    (n - 1) * W + W = n * W := by
  obtain ⟨m, rfl⟩ : ∃ m, n = m + 1 := ⟨n - 1, by omega⟩
  simp [Nat.add_mul]

/-- Page count of the window that starts at `i = k·W`:
`min (i + W) P - i`, i.e. `W` for every full window and `P - i` for the
final partial one. -/
theorem pages_length_split_pdf (P W k : Nat) (h : k < ceilDivN P W) :
    ∃ part, (split_pdf P W)[k]? = some part ∧
      part.pages.length = min (k * W + W) P - k * W := by
  have h' : k < (P + W - 1) / W := h
  rw [getElem?_split_pdf, if_pos h']
  exact ⟨_, rfl, by simp [length_pyRange_one]⟩

/--
C1. For a document with `P ≥ 1` pages and window size `W ≥ 1`, `split_pdf`
produces `⌈P/W⌉` parts; every part except the last has exactly `W` pages, and
the last part has `P - W·(⌈P/W⌉ - 1)` pages, a number between 1 and `W`.
-/
theorem split_pdf_part_counts (P W : Nat) (hP : 1 ≤ P) (hW : 1 ≤ W) :
    (split_pdf P W).length = ceilDivN P W
    ∧ (∀ k part, k + 1 < ceilDivN P W → (split_pdf P W)[k]? = some part →
        part.pages.length = W)
    ∧ (∃ part, (split_pdf P W)[(ceilDivN P W - 1)]? = some part
        ∧ part.pages.length = P - W * (ceilDivN P W - 1)
        ∧ 1 ≤ part.pages.length ∧ part.pages.length ≤ W) := by
  obtain ⟨hlo, hhi⟩ := ceilDivN_bounds P W hP hW
  have hn := ceilDivN_pos P W hP hW
  refine ⟨length_split_pdf P W, ?_, ?_⟩
  · intro k part hk hpart
    obtain ⟨part', hpart', hlen⟩ :=
      pages_length_split_pdf P W k (Nat.lt_of_le_of_lt (Nat.le_succ k) hk)
    rw [hpart'] at hpart
    obtain rfl : part' = part := by injection hpart
    rw [hlen]
    -- a non-final window is full: `k·W + W ≤ P` because `(k+1)·W ≤ (n-1)·W < P`
    have h1 : (k + 1) * W ≤ (ceilDivN P W - 1) * W :=
      Nat.mul_le_mul_right W (by omega)
    have h2 : (k + 1) * W = k * W + W := by ring
    omega
  · obtain ⟨part, hpart, hlen⟩ :=
      pages_length_split_pdf P W (ceilDivN P W - 1) (by omega)
    have hsum := pred_mul_add (ceilDivN P W) W hn
    have hcomm : (ceilDivN P W - 1) * W = W * (ceilDivN P W - 1) :=
      Nat.mul_comm _ _
    exact ⟨part, hpart, by omega, by omega, by omega⟩

/-- Witness for C1 at `P = 25`, `W = 10`: three parts of 10, 10 and 5 pages. -/
theorem split_pdf_part_counts_witness :
    (split_pdf 25 10).length = ceilDivN 25 10
    ∧ (∀ k part, k + 1 < ceilDivN 25 10 → (split_pdf 25 10)[k]? = some part →
        part.pages.length = 10)
    ∧ (∃ part, (split_pdf 25 10)[(ceilDivN 25 10 - 1)]? = some part
        ∧ part.pages.length = 25 - 10 * (ceilDivN 25 10 - 1)
        ∧ 1 ≤ part.pages.length ∧ part.pages.length ≤ 10) :=
  split_pdf_part_counts 25 10 (by decide) (by decide)

/-- Every part written by `split_pdf` holds at most `max_pages` pages. -/
theorem split_pdf_pages_le (P W : Nat) :
    ∀ part ∈ split_pdf P W, part.pages.length ≤ W := by
  intro part hmem
  obtain ⟨i, _, rfl⟩ := List.mem_map.mp hmem
  simp only [length_pyRange_one]
  omega

/--
C7. For a document with `1 ≤ P ≤ W` pages, `split_pdf` produces exactly one
part, and that part contains all `P` pages (page indices `0 … P-1`).
-/
theorem split_pdf_single_part (P W : Nat) (hP : 1 ≤ P) (hPW : P ≤ W) :
    (split_pdf P W).length = 1
    ∧ ∀ part ∈ split_pdf P W, part.pages = List.range P := by
  have hW : 1 ≤ W := le_trans hP hPW
  have hceil : (P + W - 1) / W = 1 := by
    apply Nat.div_eq_of_lt_le <;> omega
  have hrange : pyRange 0 P W = [0] := by
    unfold pyRange
    simp only [Nat.sub_zero]
    rw [hceil]
    simp [List.range_succ]
  constructor
  · rw [length_split_pdf, hceil]
  · intro part hmem
    unfold split_pdf at hmem
    rw [hrange] at hmem
    simp only [List.map_cons, List.map_nil, List.mem_singleton] at hmem
    subst hmem
    show pyRange 0 (min (0 + W) P) 1 = List.range P
    have hmin : min (0 + W) P = P := by omega
    rw [hmin, pyRange_one]
    simp

/-- Witness for C7 at `P = 4`, `W = 10`. -/
theorem split_pdf_single_part_witness :
    (split_pdf 4 10).length = 1
    ∧ ∀ part ∈ split_pdf 4 10, part.pages = List.range 4 :=
  split_pdf_single_part 4 10 (by decide) (by decide)

/--
C9. The part whose window starts at page index `i = k·W` is written to path
`"split_{i}.pdf"` (and its first page is `i`); the returned list is the list
of written paths in the order of the window starts `0, W, 2W, …`, which is
strictly increasing.
-/
theorem split_pdf_paths (P W : Nat) (hW : 1 ≤ W) :
    (∀ k part, (split_pdf P W)[k]? = some part →
        part.path = "split_" ++ toString (k * W) ++ ".pdf"
        ∧ part.pages[0]? = some (k * W))
    ∧ (split_pdf P W).map PdfPart.path
        = (pyRange 0 P W).map (fun i => "split_" ++ toString i ++ ".pdf")
    ∧ List.Pairwise (· < ·) (pyRange 0 P W) := by
  refine ⟨?_, ?_, ?_⟩
  · intro k part hpart
    rw [getElem?_split_pdf] at hpart
    by_cases hk : k < (P + W - 1) / W
    · rw [if_pos hk] at hpart
      obtain rfl : _ = part := by injection hpart
      refine ⟨rfl, ?_⟩
      -- the window is nonempty: `k·W < P`
      have hP : 1 ≤ P := by
        by_contra hP0
        have : P = 0 := by omega
        subst this
        rw [Nat.div_eq_of_lt (by omega)] at hk
        omega
      obtain ⟨hlo, _⟩ := ceilDivN_bounds P W hP hW
      have h1 : k * W ≤ (ceilDivN P W - 1) * W :=
        Nat.mul_le_mul_right W (by have : k < ceilDivN P W := hk; omega)
      have hkP : k * W < P := lt_of_le_of_lt h1 hlo
      rw [getElem?_pyRange, if_pos (by omega)]
      simp
    · rw [if_neg hk] at hpart
      exact absurd hpart (by simp)
  · unfold split_pdf
    rw [List.map_map]
    rfl
  · have hmono : ∀ a b : Nat, a < b → 0 + a * W < 0 + b * W := by
      intro a b hab
      simpa using (Nat.mul_lt_mul_right hW).mpr hab
    exact List.Pairwise.map _ (fun a b h => hmono a b h) (List.pairwise_lt_range _)

/-- Witness for C9 at `P = 25`, `W = 10`: paths
`split_0.pdf, split_10.pdf, split_20.pdf` in increasing window order. -/
theorem split_pdf_paths_witness :
    (∀ k part, (split_pdf 25 10)[k]? = some part →
        part.path = "split_" ++ toString (k * 10) ++ ".pdf"
        ∧ part.pages[0]? = some (k * 10))
    ∧ (split_pdf 25 10).map PdfPart.path
        = (pyRange 0 25 10).map (fun i => "split_" ++ toString i ++ ".pdf")
    ∧ List.Pairwise (· < ·) (pyRange 0 25 10) :=
  split_pdf_paths 25 10 (by decide)

/-! ## The tool: `DocumentSearchTool`

The external world (filesystem, PDF library, GroundX remote service) is a
deterministic oracle `Env`; the calls the tool makes to it are recorded in an
explicit trace of `ExtCall` events, in program order. -/

/-- One call to the outside world, with the arguments the source passes. -/
inductive ExtCall where
  /-- `self.client.buckets.create(name=...)` -/
  | createBucket (name : String)
  /-- `os.path.getsize(path)` (the size inspection; raises if missing) -/
  | getSize (path : String)
  /-- `self.client.ingest(documents=[Document(...)])` -/
  | ingestDoc (bucketId : Nat) (fileName : String) (filePath : String)
      (fileType : String) (searchKey : String) (searchValue : String)
  /-- `self.client.documents.get_processing_status_by_id(process_id=...)` -/
  | getStatus (processId : Nat)
  /-- `self.client.search.content(id=..., query=..., n=..., verbosity=...)` -/
  | searchContent (bucketId : Nat) (query : String) (n : Nat) (verbosity : Nat)
deriving Repr, DecidableEq

/-- Deterministic oracle for the outside world: file sizes (`none` = the
file does not exist and `os.path.getsize` raises), page counts, and the
remote service's replies. -/
structure Env where
  fileSize : String → Option Nat
  pageCount : String → Nat
  bucketIdOf : String → Nat
  processIdOf : Nat → String → Nat
  statusOf : Nat → String
  resultsOf : Nat → String → Nat → Nat → List String

/-- `os.path.basename` for POSIX paths: the component after the last `/`
(modelled on the character list so it evaluates by kernel reduction). -/
def basename (p : String) : String :=
  String.mk ((p.toList.reverse.takeWhile (· ≠ '/')).reverse)

/-- The fields of `DocumentSearchTool` set by `__init__` and read by `_run`. -/
structure ToolState where
  file_path : String
  bucket_id : Nat
  pdf_parts : List String
  process_ids : List Nat
deriving Repr, DecidableEq

/-- Embeds `_upload_document` (src/custom_tool.py:42-55): the `ingest` call
it issues (with `file_name=os.path.basename(...)`, `file_type="pdf"` and
`search_data={"key": "value"}`) and the process id it returns. -/
def upload_document (env : Env) (bucket_id : Nat) (file_path : String) :
    ExtCall × Nat :=
  (ExtCall.ingestDoc bucket_id (basename file_path) file_path "pdf" "key" "value",
   env.processIdOf bucket_id file_path)

/-- Embeds `DocumentSearchTool.__init__` (src/custom_tool.py:24-40).
Returns the trace of external calls in program order and either the
constructed state or an error (an uncaught Python exception).  The bucket is
created first; then `os.path.getsize` is consulted — when the file is
missing the constructor fails there, after the bucket creation; otherwise
the file is split iff its size is strictly greater than `10_485_760` bytes
(window 10 pages), and each part is uploaded in order. -/
def DocumentSearchTool.init (env : Env) (file_path : String) :
    List ExtCall × Except String ToolState :=
  let bucket_id := env.bucketIdOf "agentic_rag"
  let log0 := [ExtCall.createBucket "agentic_rag"]
  match env.fileSize file_path with
  | none => (log0 ++ [ExtCall.getSize file_path], Except.error "FileNotFoundError")
  | some size =>
      let pdf_parts :=
        if size > 10485760 then
          (split_pdf (env.pageCount file_path) 10).map PdfPart.path
        else [file_path]
      let process_ids := pdf_parts.map (fun part => (upload_document env bucket_id part).2)
      (log0 ++ [ExtCall.getSize file_path]
          ++ pdf_parts.map (fun part => (upload_document env bucket_id part).1),
       Except.ok { file_path := file_path, bucket_id := bucket_id,
                   pdf_parts := pdf_parts, process_ids := process_ids })

/-- The loop of `_run` (src/custom_tool.py:64-80) over the remaining process
ids, carrying the accumulated `results` list.  For each id the status is
fetched; if it is not `"complete"` the loop returns the still-processing
sentinel at once; otherwise a search (`n=10, verbosity=2`) is issued
immediately and its fragments are appended.  After the loop the fragments
are joined with `"\n____\n"`, or the no-results sentinel is returned. -/
def runLoop (env : Env) (bucket_id : Nat) (query : String) :
    List Nat → List String → List ExtCall × String
  | [], results =>
      ([], if results.isEmpty then "No relevant information found."
           else String.intercalate "\n____\n" results)
  | pid :: rest, results =>
      if env.statusOf pid ≠ "complete" then
        ([ExtCall.getStatus pid], "Document is still being processed...")
      else
        let frags := env.resultsOf bucket_id query 10 2
        let next := runLoop env bucket_id query rest (results ++ frags)
        (ExtCall.getStatus pid :: ExtCall.searchContent bucket_id query 10 2 :: next.1,
         next.2)

/-- Embeds `_run` (src/custom_tool.py:62-80): the trace of external calls,
the returned string, and the state after the call — the method never assigns
to `self`, so that state is the input state. -/
def DocumentSearchTool.run (env : Env) (st : ToolState) (query : String) :
    List ExtCall × String × ToolState :=
  let r := runLoop env st.bucket_id query st.process_ids []
  (r.1, r.2, st)

/-- Recognizes a search request in the trace. -/
def ExtCall.isSearch : ExtCall → Bool
  | .searchContent _ _ _ _ => true
  | _ => false

/-- If some remaining job is not complete, the loop returns the
still-processing sentinel (whatever was accumulated so far). -/
theorem runLoop_incomplete (env : Env) (b : Nat) (query : String) :
    ∀ (pids : List Nat) (acc : List String),
      (∃ pid ∈ pids, env.statusOf pid ≠ "complete") →
      (runLoop env b query pids acc).2 = "Document is still being processed..." := by
  intro pids
  induction pids with
  | nil => intro acc h; simp at h
  | cons pid rest ih =>
      intro acc h
      by_cases hc : env.statusOf pid = "complete"
      · have hrest : ∃ p ∈ rest, env.statusOf p ≠ "complete" := by
          obtain ⟨p, hp, hps⟩ := h
          rcases List.mem_cons.mp hp with rfl | hp'
          · exact absurd hc hps
          · exact ⟨p, hp', hps⟩
        simp only [runLoop, hc, ne_eq, not_true_eq_false, if_false, ite_false]
        simpa using ih _ hrest
      · simp [runLoop, hc]

/-- If every remaining job is complete, the loop fetches each status and
immediately issues one search per job, and returns the accumulated fragments
joined with the fixed delimiter (or the no-results sentinel). -/
theorem runLoop_all_complete (env : Env) (b : Nat) (query : String) :
    ∀ (pids : List Nat) (acc : List String),
      (∀ pid ∈ pids, env.statusOf pid = "complete") →
      runLoop env b query pids acc =
        (pids.flatMap (fun pid =>
            [ExtCall.getStatus pid, ExtCall.searchContent b query 10 2]),
         let all := acc ++ pids.flatMap (fun _ => env.resultsOf b query 10 2)
         if all.isEmpty then "No relevant information found."
         else String.intercalate "\n____\n" all) := by
  intro pids
  induction pids with
  | nil => intro acc h; simp [runLoop]
  | cons pid rest ih =>
      intro acc h
      have hpid : env.statusOf pid = "complete" := h pid (by simp)
      have hrest : ∀ p ∈ rest, env.statusOf p = "complete" :=
        fun p hp => h p (by simp [hp])
      simp only [runLoop, hpid, ne_eq, not_true_eq_false, if_false, ite_false,
        ih _ hrest, List.flatMap_cons, List.append_assoc, List.cons_append,
        List.nil_append]

/-- If the jobs are a block of complete ones followed by an incomplete one,
the loop checks each complete status, searches right after it, and stops at
the first incomplete status without touching the ids after it. -/
theorem runLoop_stops_at_first_incomplete (env : Env) (b : Nat) (query : String)
    (pid : Nat) (hpid : env.statusOf pid ≠ "complete") :
    ∀ (pre rest : List Nat) (acc : List String),
      (∀ p ∈ pre, env.statusOf p = "complete") →
      runLoop env b query (pre ++ pid :: rest) acc =
        (pre.flatMap (fun p =>
            [ExtCall.getStatus p, ExtCall.searchContent b query 10 2])
          ++ [ExtCall.getStatus pid],
         "Document is still being processed...") := by
  intro pre
  induction pre with
  | nil => intro rest acc _; simp [runLoop, hpid]
  | cons q pre' ih =>
      intro rest acc hpre
      have hq : env.statusOf q = "complete" := hpre q (by simp)
      have hpre' : ∀ p ∈ pre', env.statusOf p = "complete" :=
        fun p hp => hpre p (by simp [hp])
      simp only [List.cons_append, runLoop, hq, ne_eq, not_true_eq_false,
        if_false, ite_false, List.append_eq]
      rw [ih rest _ hpre']
      simp [List.flatMap_cons, List.append_assoc]

/--
C2. If any recorded job's status is not `"complete"`, `_run` returns the
fixed sentinel `"Document is still being processed..."`, whatever the other
jobs' statuses are.
-/
theorem run_returns_processing_sentinel (env : Env) (st : ToolState) (query : String)
    (h : ∃ pid ∈ st.process_ids, env.statusOf pid ≠ "complete") :
    (DocumentSearchTool.run env st query).2.1
      = "Document is still being processed..." :=
  runLoop_incomplete env st.bucket_id query st.process_ids [] h

/--
C3. If every recorded job is complete, `_run` returns the collected
fragments (one search's results per job, in job order) joined with
`"\n____\n"`, and `"No relevant information found."` when no fragment was
collected.
-/
theorem run_output_all_complete (env : Env) (st : ToolState) (query : String)
    (h : ∀ pid ∈ st.process_ids, env.statusOf pid = "complete") :
    (DocumentSearchTool.run env st query).2.1 =
      (let all := st.process_ids.flatMap
          (fun _ => env.resultsOf st.bucket_id query 10 2)
       if all.isEmpty then "No relevant information found."
       else String.intercalate "\n____\n" all) := by
  show (runLoop env st.bucket_id query st.process_ids []).2 = _
  rw [runLoop_all_complete env st.bucket_id query st.process_ids [] h]
  simp

/-- One search per job: filtering the all-complete trace down to search
requests leaves one identical request per process id. -/
theorem filter_isSearch_trace (b : Nat) (query : String) (pids : List Nat) :
    ((pids.flatMap (fun pid =>
        [ExtCall.getStatus pid,
         ExtCall.searchContent b query 10 2])).filter ExtCall.isSearch)
      = List.replicate pids.length (ExtCall.searchContent b query 10 2) := by
  induction pids with
  | nil => rfl
  | cons pid rest ih =>
      rw [List.flatMap_cons, List.filter_append, ih]
      simp [ExtCall.isSearch, List.filter, List.replicate_succ]

/--
C8. When all `N` recorded jobs are complete, `_run` issues exactly one
search request per job — `N` identical requests with the same query, the
same bucket id, `n = 10` and `verbosity = 2`, one right after each status
fetch — and the output is built from the per-job fragment lists concatenated
in job order into one flat sequence.
-/
theorem run_one_search_per_job (env : Env) (st : ToolState) (query : String)
    (h : ∀ pid ∈ st.process_ids, env.statusOf pid = "complete") :
    (DocumentSearchTool.run env st query).1
      = st.process_ids.flatMap (fun pid =>
          [ExtCall.getStatus pid,
           ExtCall.searchContent st.bucket_id query 10 2])
    ∧ ((DocumentSearchTool.run env st query).1.filter ExtCall.isSearch)
      = List.replicate st.process_ids.length
          (ExtCall.searchContent st.bucket_id query 10 2)
    ∧ (DocumentSearchTool.run env st query).2.1 =
        (let all := st.process_ids.flatMap
            (fun _ => env.resultsOf st.bucket_id query 10 2)
         if all.isEmpty then "No relevant information found."
         else String.intercalate "\n____\n" all) := by
  have hloop := runLoop_all_complete env st.bucket_id query st.process_ids [] h
  have htrace : (DocumentSearchTool.run env st query).1
      = st.process_ids.flatMap (fun pid =>
          [ExtCall.getStatus pid,
           ExtCall.searchContent st.bucket_id query 10 2]) := by
    show (runLoop env st.bucket_id query st.process_ids []).1 = _
    rw [hloop]
  refine ⟨htrace, ?_, ?_⟩
  · rw [htrace, filter_isSearch_trace]
  · show (runLoop env st.bucket_id query st.process_ids []).2 = _
    rw [hloop]
    simp

/--
C6 (amended). `_run` interleaves status checks and searches: statuses are
fetched one at a time in recorded order, a search is issued immediately
after each status found complete, and the first incomplete status makes the
call return at once, without fetching the statuses of the remaining jobs.
-/
theorem run_interleaves_checks_and_searches (env : Env) (st : ToolState)
    (query : String) (pre : List Nat) (pid : Nat) (rest : List Nat)
    (hsplit : st.process_ids = pre ++ pid :: rest)
    (hpre : ∀ p ∈ pre, env.statusOf p = "complete")
    (hpid : env.statusOf pid ≠ "complete") :
    (DocumentSearchTool.run env st query).1
      = pre.flatMap (fun p =>
          [ExtCall.getStatus p,
           ExtCall.searchContent st.bucket_id query 10 2])
        ++ [ExtCall.getStatus pid]
    ∧ (DocumentSearchTool.run env st query).2.1
      = "Document is still being processed..." := by
  have hloop := runLoop_stops_at_first_incomplete env st.bucket_id query pid hpid
    pre rest [] hpre
  constructor
  · show (runLoop env st.bucket_id query st.process_ids []).1 = _
    rw [hsplit, hloop]
  · show (runLoop env st.bucket_id query st.process_ids []).2 = _
    rw [hsplit, hloop]

/--
C5. After a successful construction the job-id list and the part list have
the same length and positionally correspond — job `i` is the upload of part
`i` — and a query leaves the state unchanged.
-/
theorem init_parts_jobs_aligned (env : Env) (path : String) (size : Nat)
    (hsz : env.fileSize path = some size) :
    ∃ st, (DocumentSearchTool.init env path).2 = Except.ok st
      ∧ st.process_ids.length = st.pdf_parts.length
      ∧ st.process_ids
          = st.pdf_parts.map (fun part => (upload_document env st.bucket_id part).2)
      ∧ ∀ query, (DocumentSearchTool.run env st query).2.2 = st := by
  simp only [DocumentSearchTool.init, hsz]
  exact ⟨_, rfl, (List.length_map _ _), rfl, fun _ => rfl⟩

/--
C4. With the input file present, construction splits iff the byte size is
strictly greater than 10485760: at exactly the threshold the whole file is
the single part, above it the parts are the `split_pdf` output with windows
of at most 10 pages.
-/
theorem init_split_threshold (env : Env) (path : String) (size : Nat)
    (hsz : env.fileSize path = some size) :
    ∃ st, (DocumentSearchTool.init env path).2 = Except.ok st
      ∧ st.pdf_parts = (if size > 10485760
          then (split_pdf (env.pageCount path) 10).map PdfPart.path
          else [path])
      ∧ ∀ part ∈ split_pdf (env.pageCount path) 10, part.pages.length ≤ 10 := by
  simp only [DocumentSearchTool.init, hsz]
  exact ⟨_, rfl, rfl, split_pdf_pages_le _ 10⟩

/--
C10. The bucket-creation call (fixed name `"agentic_rag"`) is the first
external call of every construction, issued before the byte-size inspection;
when the input file does not exist the constructor fails with exactly those
two calls made, so the remote bucket has already been created.
-/
theorem init_bucket_created_before_size_check (env : Env) (path : String) :
    (DocumentSearchTool.init env path).1.head?
        = some (ExtCall.createBucket "agentic_rag")
    ∧ (DocumentSearchTool.init env path).1.take 2
        = [ExtCall.createBucket "agentic_rag", ExtCall.getSize path]
    ∧ (env.fileSize path = none →
        (DocumentSearchTool.init env path).2.isOk = false
        ∧ (DocumentSearchTool.init env path).1
          = [ExtCall.createBucket "agentic_rag", ExtCall.getSize path]) := by
  cases hsz : env.fileSize path <;>
    simp [DocumentSearchTool.init, hsz, Except.isOk, Except.toBool]

/-! ## Concrete sample data for witnesses and counterexamples -/

/-- A sample world: `missing.pdf` does not exist, `big.pdf` is one byte over
the split threshold, every other file is exactly at it; documents have 25
pages; process ids 0 and 1 are complete, all others still processing; every
search returns the fragments `["A", "B"]`. -/
def sampleEnv : Env where
  fileSize := fun p =>
    if p = "missing.pdf" then none
    else if p = "big.pdf" then some 10485761
    else some 10485760
  pageCount := fun _ => 25
  bucketIdOf := fun _ => 7
  processIdOf := fun _ _ => 42
  statusOf := fun pid => if pid ≤ 1 then "complete" else "processing"
  resultsOf := fun _ _ _ _ => ["A", "B"]

/-- Like `sampleEnv` but every search comes back empty. -/
def sampleEnvNoHits : Env :=
  { sampleEnv with resultsOf := fun _ _ _ _ => [] }

/-- A constructed tool with a single part and its (complete) job 0. -/
def sampleStateOne : ToolState where
  file_path := "doc.pdf"
  bucket_id := 7
  pdf_parts := ["doc.pdf"]
  process_ids := [0]

/-- A constructed tool with two parts, jobs 0 and 1 (both complete). -/
def sampleStatePair : ToolState where
  file_path := "doc.pdf"
  bucket_id := 7
  pdf_parts := ["split_0.pdf", "split_10.pdf"]
  process_ids := [0, 1]

/-- A constructed tool with two parts, job 0 complete and job 2 not. -/
def sampleStateMixed : ToolState where
  file_path := "doc.pdf"
  bucket_id := 7
  pdf_parts := ["split_0.pdf", "split_10.pdf"]
  process_ids := [0, 2]

/-- A constructed tool with three parts: job 0 complete, job 2 not, and a
further job 1 recorded after the incomplete one. -/
def sampleStateTriple : ToolState where
  file_path := "doc.pdf"
  bucket_id := 7
  pdf_parts := ["split_0.pdf", "split_10.pdf", "split_20.pdf"]
  process_ids := [0, 2, 1]

/-- Witness for C2: with job 2 still processing the query answer is the
sentinel. -/
theorem run_returns_processing_sentinel_witness :
    (∃ pid ∈ sampleStateMixed.process_ids, sampleEnv.statusOf pid ≠ "complete")
    ∧ (DocumentSearchTool.run sampleEnv sampleStateMixed "q").2.1
        = "Document is still being processed..." :=
  ⟨by decide, run_returns_processing_sentinel sampleEnv sampleStateMixed "q" (by decide)⟩

/-- Witness for C3: one complete job with fragments `["A","B"]` yields
`"A\n____\nB"`; with no fragments the no-results sentinel. -/
theorem run_output_all_complete_witness :
    (∀ pid ∈ sampleStateOne.process_ids, sampleEnv.statusOf pid = "complete")
    ∧ (DocumentSearchTool.run sampleEnv sampleStateOne "q").2.1 = "A\n____\nB"
    ∧ (DocumentSearchTool.run sampleEnvNoHits sampleStateOne "q").2.1
        = "No relevant information found." := by
  refine ⟨by decide, ?_, ?_⟩
  · rw [run_output_all_complete sampleEnv sampleStateOne "q" (by decide)]
    decide
  · rw [run_output_all_complete sampleEnvNoHits sampleStateOne "q" (by decide)]
    decide

/-- Witness for C8: two complete jobs produce exactly two identical search
requests and the per-job fragment lists concatenated in job order. -/
theorem run_one_search_per_job_witness :
    (∀ pid ∈ sampleStatePair.process_ids, sampleEnv.statusOf pid = "complete")
    ∧ (DocumentSearchTool.run sampleEnv sampleStatePair "q").1
        = [ExtCall.getStatus 0, ExtCall.searchContent 7 "q" 10 2,
           ExtCall.getStatus 1, ExtCall.searchContent 7 "q" 10 2]
    ∧ ((DocumentSearchTool.run sampleEnv sampleStatePair "q").1.filter ExtCall.isSearch)
        = List.replicate 2 (ExtCall.searchContent 7 "q" 10 2)
    ∧ (DocumentSearchTool.run sampleEnv sampleStatePair "q").2.1
        = "A\n____\nB\n____\nA\n____\nB" := by
  obtain ⟨h1, h2, h3⟩ := run_one_search_per_job sampleEnv sampleStatePair "q" (by decide)
  exact ⟨by decide, by rw [h1]; decide, by rw [h2]; decide, by rw [h3]; decide⟩

/-- Counterexample for C6 as stated: with job 0 complete and job 2 not, a
search request is issued even though job 2's status is never fetched — so
neither are all statuses checked, nor is the search held back until then. -/
theorem run_skips_later_status_checks :
    sampleEnv.statusOf 2 ≠ "complete"
    ∧ (1 : Nat) ∈ sampleStateTriple.process_ids
    ∧ (∃ c ∈ (DocumentSearchTool.run sampleEnv sampleStateTriple "q").1,
        c.isSearch = true)
    ∧ ExtCall.getStatus 1 ∉ (DocumentSearchTool.run sampleEnv sampleStateTriple "q").1 := by
  decide

/-- Witness for the amended C6: jobs `[0, 2]` with job 0 complete and job 2
not give the trace `status 0, search, status 2` and the sentinel. -/
theorem run_interleaves_checks_and_searches_witness :
    sampleStateMixed.process_ids = [0] ++ 2 :: []
    ∧ (∀ p ∈ ([0] : List Nat), sampleEnv.statusOf p = "complete")
    ∧ sampleEnv.statusOf 2 ≠ "complete"
    ∧ (DocumentSearchTool.run sampleEnv sampleStateMixed "q").1
        = [ExtCall.getStatus 0, ExtCall.searchContent 7 "q" 10 2,
           ExtCall.getStatus 2]
    ∧ (DocumentSearchTool.run sampleEnv sampleStateMixed "q").2.1
        = "Document is still being processed..." := by
  obtain ⟨h1, h2⟩ := run_interleaves_checks_and_searches sampleEnv sampleStateMixed "q"
    [0] 2 [] (by decide) (by decide) (by decide)
  exact ⟨by decide, by decide, by decide, by rw [h1]; decide, h2⟩

/-- Witness for C5 on a file at the size threshold (a single part). -/
theorem init_parts_jobs_aligned_witness :
    sampleEnv.fileSize "doc.pdf" = some 10485760
    ∧ ∃ st, (DocumentSearchTool.init sampleEnv "doc.pdf").2 = Except.ok st
      ∧ st.process_ids.length = st.pdf_parts.length
      ∧ st.process_ids
          = st.pdf_parts.map (fun part => (upload_document sampleEnv st.bucket_id part).2)
      ∧ ∀ query, (DocumentSearchTool.run sampleEnv st query).2.2 = st :=
  ⟨by decide, init_parts_jobs_aligned sampleEnv "doc.pdf" 10485760 (by decide)⟩

/-- Witness for C4 at both sides of the boundary: exactly 10485760 bytes is
not split; 10485761 bytes is split into the `split_pdf` parts (25 pages,
window 10). -/
theorem init_split_threshold_witness :
    (∃ st, (DocumentSearchTool.init sampleEnv "doc.pdf").2 = Except.ok st
       ∧ st.pdf_parts = ["doc.pdf"])
    ∧ (∃ st, (DocumentSearchTool.init sampleEnv "big.pdf").2 = Except.ok st
       ∧ st.pdf_parts = ["split_0.pdf", "split_10.pdf", "split_20.pdf"]) := by
  constructor
  · obtain ⟨st, h1, h2, -⟩ :=
      init_split_threshold sampleEnv "doc.pdf" 10485760 (by decide)
    exact ⟨st, h1, by rw [h2]; decide⟩
  · obtain ⟨st, h1, h2, -⟩ :=
      init_split_threshold sampleEnv "big.pdf" 10485761 (by decide)
    exact ⟨st, h1, by rw [h2]; decide⟩

/-- Witness for C10: constructing on the missing file fails, with the bucket
creation already issued as the first call. -/
theorem init_bucket_created_before_size_check_witness :
    sampleEnv.fileSize "missing.pdf" = none
    ∧ (DocumentSearchTool.init sampleEnv "missing.pdf").1.head?
        = some (ExtCall.createBucket "agentic_rag")
    ∧ (DocumentSearchTool.init sampleEnv "missing.pdf").2.isOk = false
    ∧ (DocumentSearchTool.init sampleEnv "missing.pdf").1
        = [ExtCall.createBucket "agentic_rag", ExtCall.getSize "missing.pdf"] := by
  obtain ⟨h1, h2, h3⟩ := init_bucket_created_before_size_check sampleEnv "missing.pdf"
  obtain ⟨h4, h5⟩ := h3 (by decide)
  exact ⟨by decide, h1, h4, h5⟩

end AviationRAG
